import Mathlib

/-!
Verification of the web-observer scheduling and execution daemon.

Shallow embedding of:
  * `parseDuration` (daemon, src/unnamed/part_003 lines 37-64) — schedule parsing;
  * `parseSite` (src/helpers/parse.js lines 30-80) — retried extraction stage;
  * `processWithOllama` (src/unnamed/part_001 lines 4-33) — inference stage;
  * `runTask` (src/unnamed/part_003 lines 114-144) — execution pipeline;
  * the scheduling loop of `startDaemon` (src/unnamed/part_003 lines 146-199);
  * `stopDaemon` (src/unnamed/part_003 lines 201-213).

External effects (browser, network, clock) are passed in as explicit oracle
parameters; machine time is an `Int` count of milliseconds on the same local
clock that `new Date()` reads.  JS string primitives (`trim`, single-character
`split`, `includes`, `startsWith`) are modelled by executable character-list
functions so that every definition evaluates on concrete inputs.
-/

namespace WebObserver

/-! ### JS string primitives -/

/-- JS `String.prototype.trim`, over a character list (ASCII whitespace;
the exotic Unicode space characters JS also trims play no role here). -/
def trimL (l : List Char) : List Char :=
  ((l.dropWhile Char.isWhitespace).reverse.dropWhile Char.isWhitespace).reverse

/-- JS `s.trim()`. -/
def jsTrim (s : String) : String :=
  (trimL s.toList).asString

/-- JS `s.split(sep)` for a one-character separator (every split in the
daemon uses one): the empty string yields `[""]`, separators at the edges
yield empty chunks, exactly as in JS. -/
def splitChL (sep : Char) : List Char → List (List Char)
  | [] => [[]]
  | x :: rest =>
    let r := splitChL sep rest
    if x = sep then [] :: r
    else
      match r with
      | h :: t => (x :: h) :: t
      | [] => [[x]]

/-- JS `s.split(sep)` on strings. -/
def jsSplit (s : String) (sep : Char) : List String :=
  (splitChL sep s.toList).map List.asString

/-- JS `s.includes(c)` for a one-character needle. -/
def jsContainsCh (s : String) (c : Char) : Bool :=
  s.toList.contains c

/-- Does `needle` occur as a contiguous run inside `hay`? -/
def subListOf (needle : List Char) : List Char → Bool
  | [] => needle.isEmpty
  | x :: rest => needle.isPrefixOf (x :: rest) || subListOf needle rest

/-- JS `s.includes(sub)` for a general needle. -/
def jsIncludes (s sub : String) : Bool :=
  subListOf sub.toList s.toList

/-- JS `s.startsWith(p)`. -/
def jsStartsWith (s p : String) : Bool :=
  p.toList.isPrefixOf s.toList

/-! ### Number and date coercions -/

/-- Value of a decimal-digit character list, most significant first. -/
def natFromDigits (l : List Char) : Nat :=
  l.foldl (fun n c => n * 10 + (c.toNat - '0'.toNat)) 0

/-- JS `Number(s)` coercion, modelled for the strings the schedule grammar
produces: after trimming, the empty string is `0`, an optional single sign
followed by decimal digits is that integer, and everything else is NaN
(`none`).  Exotic numeric literal forms JS would also accept (hex, binary,
exponent, `Infinity`) are mapped to NaN; no schedule component in the claims
uses them. -/
def jsNumber (s : String) : Option Int :=
  let t := trimL s.toList
  if t = [] then some 0
  else
    let signDigits : Int × List Char :=
      match t with
      | '+' :: rest => (1, rest)
      | '-' :: rest => (-1, rest)
      | l => (1, l)
    if signDigits.2 ≠ [] ∧ signDigits.2.all Char.isDigit then
      some (signDigits.1 * (natFromDigits signDigits.2 : Int))
    else none

/-- JS array destructuring of `parts.map(Number)` at index `i`: a missing
element is `undefined`, which behaves as NaN in the arithmetic that follows. -/
def numAt (parts : List String) (i : Nat) : Option Int :=
  match parts.get? i with
  | some p => jsNumber p
  | none => none

/-- Days from the civil epoch 1970-01-01 for year `y`, month `m` (1..12) and
day-of-month `d` (`d` may lie outside 1..31: it acts as an offset, exactly as
in ECMAScript `MakeDay`). -/
def daysFromCivil (y m d : Int) : Int :=
  let y' := if m ≤ 2 then y - 1 else y
  let era := Int.fdiv y' 400
  let yoe := y' - era * 400
  let mp := Int.emod (m + 9) 12
  let doy := Int.fdiv (153 * mp + 2) 5 + d - 1
  let doe := yoe * 365 + Int.fdiv yoe 4 - Int.fdiv yoe 100 + doy
  era * 146097 + doe - 719468

/-- `new Date(year, monthIndex, day, hour, minute).getTime()` on the local
clock, for finite numeric arguments: ECMAScript normalises an out-of-range
`monthIndex` into the year and an out-of-range `day`, `hour`, `minute` by
rollover — it never produces an invalid date from finite integers within the
range of `Date`.  (The legacy 0..99 → 1900+y year mapping and the ±8.64e15 ms
clipping are outside the inputs the claims exercise and are not modelled.) -/
def jsDateValue (year monthIdx day hour minute : Int) : Int :=
  let ym := year + Int.fdiv monthIdx 12
  let mn := Int.emod monthIdx 12 + 1
  (daysFromCivil ym mn day) * 86400000 + hour * 3600000 + minute * 60000

/-! ### Cron validation (external dependency, modelled from the spec) -/

/-- Whether `s` is a decimal numeral for a value in `lo..hi`. -/
def cronNumOk (lo hi : Nat) (s : String) : Bool :=
  s ≠ "" && s.toList.all Char.isDigit &&
    lo ≤ natFromDigits s.toList && natFromDigits s.toList ≤ hi

/-- A plain number or a range `a-b` within the field's bounds. -/
def cronRangeOk (lo hi : Nat) (b : String) : Bool :=
  match jsSplit b '-' with
  | [x] => cronNumOk lo hi x
  | [x, y] => cronNumOk lo hi x && cronNumOk lo hi y &&
      natFromDigits x.toList ≤ natFromDigits y.toList
  | _ => false

/-- One comma-separated option of a cron field: `*`, `*/step`, a number,
a range `a-b`, or a stepped range `a-b/step`. -/
def cronAtomOk (lo hi : Nat) (a : String) : Bool :=
  if a = "*" then true
  else
    match jsSplit a '/' with
    | [base, step] =>
        (base = "*" || cronRangeOk lo hi base) && cronNumOk 1 10000 step
    | [base] => cronRangeOk lo hi base
    | _ => false

/-- A whole cron field: a non-empty comma list of valid options. -/
def cronFieldOk (lo hi : Nat) (f : String) : Bool :=
  f ≠ "" && (jsSplit f ',').all (cronAtomOk lo hi)

/-- Modelled from the spec: `cron.validate` of the node-cron dependency is
not part of src/; the spec requires "the string splits into exactly five
whitespace-separated fields and each field is a syntactically valid cron
field".  Fields are checked positionally with the standard numeric bounds
(minute 0-59, hour 0-23, day 1-31, month 1-12, weekday 0-7), each admitting
`*`, numbers, ranges and steps. -/
def cronValidate (s : String) : Bool :=
  match (jsSplit s ' ').filter (fun f => f ≠ "") with
  | [mi, h, d, mo, w] =>
      cronFieldOk 0 59 mi && cronFieldOk 0 23 h && cronFieldOk 1 31 d &&
        cronFieldOk 1 12 mo && cronFieldOk 0 7 w
  | _ => false

/-! ### Schedule parsing -/

/-- The value `parseDuration` returns when it does not return `null`:
either a cron registration request or a one-shot delay in milliseconds. -/
inductive Duration where
  | cron (schedule : String)
  | once (delay : Int)
deriving DecidableEq, Repr

/-- `const [date, time] = trimmedDuration.split(' ')`, then
`date.split('.')`: the components of the date chunk. -/
def dateComps (t : String) : List String :=
  jsSplit ((jsSplit t ' ').getD 0 "") '.'

/-- `time.split('.')`: the components of the time chunk.  (This branch is
reached only when `t` contains a space, so `time` is defined.) -/
def timeComps (t : String) : List String :=
  jsSplit ((jsSplit t ' ').getD 1 "") '.'

/-- The guard of the cron branch:
`trimmedDuration.split(' ').length === 5 && cron.validate(trimmedDuration)`. -/
def cronGuard (t : String) : Prop :=
  (jsSplit t ' ').length = 5 ∧ cronValidate t = true

instance (t : String) : Decidable (cronGuard t) := by
  unfold cronGuard; infer_instance

/-- `parseDuration` (src/unnamed/part_003 lines 37-64).  `now` is the value
`new Date()` reads when the delay of a one-time schedule is computed.  All
throw-and-catch paths collapse to `none` (the function catches its own
errors, logs, and returns `null`, which the caller treats as unscheduled). -/
def parseDuration (duration : String) (now : Int) : Option Duration :=
  if duration = "" then none
  else
    let t := jsTrim duration
    if cronGuard t then
      some (.cron t)
    else if jsContainsCh t '.' then
      if jsContainsCh t ' ' then
        match numAt (dateComps t) 0, numAt (dateComps t) 1, numAt (dateComps t) 2,
              numAt (timeComps t) 0, numAt (timeComps t) 1 with
        | some day, some month, some year, some hour, some minute =>
            some (.once (jsDateValue (2000 + year) (month - 1) day hour minute - now))
        | _, _, _, _, _ => none
      else
        match numAt (jsSplit t '.') 0, numAt (jsSplit t '.') 1 with
        | some hour, some minute =>
            some (.cron (toString minute ++ " " ++ toString hour ++ " * * *"))
        | _, _ => none
    else none

/-! ### Extraction stage -/

/-- A character the JS regex metacharacter `.` matches (anything but a line
terminator; the rare U+2028/U+2029 terminators are not modelled). -/
def jsDot (c : Char) : Bool :=
  c ≠ '\n' && c ≠ '\r'

/-- Does `https?:\/\/.` match starting at this character list? -/
def matchHttpAt (l : List Char) : Bool :=
  match l with
  | 'h' :: 't' :: 't' :: 'p' :: rest =>
    match rest with
    | 's' :: ':' :: '/' :: '/' :: d :: _ => jsDot d
    | ':' :: '/' :: '/' :: d :: _ => jsDot d
    | _ => false
  | _ => false

/-- Search for the pattern anywhere in the list (the JS regex is unanchored). -/
def httpTestAux (l : List Char) : Bool :=
  match l with
  | [] => false
  | _ :: rest => matchHttpAt l || httpTestAux rest

/-- JS `/https?:\/\/.+/.test(s)`. -/
def httpTest (s : String) : Bool :=
  httpTestAux s.toList

/-- The guard `!url || !/https?:\/\/.+/.test(url)` of `parseSite`: an empty
(falsy) or non-matching URL is invalid. -/
def urlValid (url : String) : Bool :=
  url ≠ "" && httpTest url

/-- Outcome of the external effects of one extraction attempt, after the
input validation has passed: what the browser session did. -/
inductive AttemptOutcome where
  | launchFail
  | navFail
  | selectorReject
  | evalOk (content : String)
deriving DecidableEq, Repr

/-- Statistics of one `parseSite` run: the returned string, the number of
loop iterations that executed, the number of browser acquisitions
(`puppeteer.launch` completing), the number of browser releases
(`browser.close`), and the number of inter-attempt backoff delays waited. -/
structure RunStats where
  result : String
  attempts : Nat
  acquisitions : Nat
  releases : Nat
  backoffs : Nat
deriving DecidableEq, Repr

/-- One attempt body of `parseSite` (src/helpers/parse.js lines 33-63), given
that the input validation verdict is `valid`:
`(success content, acquisitions, releases)`, where `none` means the attempt
threw into the catch block.  Invalid input throws before `puppeteer.launch`,
so nothing is acquired; a launch failure leaves `browser` null; every
post-launch path (navigation error, rejected selector, an extraction result
starting with the in-page "Error:" marker, or success) closes the browser
exactly once, either in the catch block or on line 60 before returning. -/
def attemptStep (valid : Bool) (o : AttemptOutcome) : Option String × Nat × Nat :=
  if !valid then (none, 0, 0)
  else
    match o with
    | .launchFail => (none, 0, 0)
    | .navFail => (none, 1, 1)
    | .selectorReject => (none, 1, 1)
    | .evalOk c =>
        if jsStartsWith c "Error:" then (none, 1, 1)
        else (some (if c = "" then "No content found" else c), 1, 1)

/-- The retry loop of `parseSite`: `attempt` is the 1-based counter, `fuel`
the number of iterations still allowed (`retries - attempt + 1`).  A failed
attempt with iterations remaining waits one backoff delay and retries;
the final failed attempt returns the sentinel. -/
def parseSiteGo (valid : Bool) (outs : Nat → AttemptOutcome) :
    Nat → Nat → RunStats
  | _, 0 => ⟨"Error parsing site", 0, 0, 0, 0⟩
  | attempt, fuel + 1 =>
    match attemptStep valid (outs attempt) with
    | (some r, a, b) => ⟨r, 1, a, b, 0⟩
    | (none, a, b) =>
      if fuel = 0 then ⟨"Error parsing site", 1, a, b, 0⟩
      else
        let rest := parseSiteGo valid outs (attempt + 1) fuel
        ⟨rest.result, rest.attempts + 1, a + rest.acquisitions,
          b + rest.releases, rest.backoffs + 1⟩

/-- `parseSite` (src/helpers/parse.js lines 30-80).  `outs i` is what the
browser session of attempt `i` would do.  The default retry budget is 2. -/
def parseSite (url : String) (tags : List String)
    (outs : Nat → AttemptOutcome) (retries : Nat := 2) : RunStats :=
  parseSiteGo (urlValid url && !tags.isEmpty) outs 1 retries

/-! ### Inference stage and pipeline -/

/-- Outcome of the external effects of `processWithOllama`: the reachability
probe (`client.list`), then the generation call. -/
inductive OllamaOutcome where
  | unreachable
  | genError
  | genOk (text : String)
deriving DecidableEq, Repr

/-- `processWithOllama` (src/unnamed/part_001 lines 4-33).  Every validation
failure, the unreachable-server probe and a throwing generation call all land
in the catch block, which returns the sentinel string; otherwise the
collaborator's response text is returned unchanged (even when empty).
`content` is only substituted into the prompt, so it cannot influence which
branch is taken (it is always a string here, so the typeof guard never
fires). -/
def processWithOllama (model prompt _content host : String)
    (o : OllamaOutcome) : String :=
  if jsTrim model = "" then "Error processing with Ollama"
  else if jsTrim prompt = "" then "Error processing with Ollama"
  else if !jsIncludes prompt "{content}" then "Error processing with Ollama"
  else if !httpTest host then "Error processing with Ollama"
  else
    match o with
    | .unreachable => "Error processing with Ollama"
    | .genError => "Error processing with Ollama"
    | .genOk t => t

/-- JS `t.replace(/^["']|["']$/g, '')`: strip at most one leading and, from
what remains, at most one trailing quote character. -/
def stripEdgeQuotes (s : String) : String :=
  let cs := s.toList
  let cs1 :=
    match cs with
    | c :: rest => if c = '"' || c = '\'' then rest else cs
    | [] => []
  let cs2 :=
    match cs1.reverse with
    | c :: rest => if c = '"' || c = '\'' then rest.reverse else cs1
    | [] => []
  cs2.asString

/-- The task configuration fields `runTask` destructures. -/
structure TaskConfig where
  name : String
  url : String
  tags : String
  model : String
  prompt : String
  ollamaHost : Option String
deriving DecidableEq, Repr

/-- Tag cleaning of `runTask` line 121:
`tags.split(',').map(t => t.trim()).map(t => t.replace(/^["']|["']$/g, ''))`
(note: no empty-entry filter here, so the list is never empty). -/
def cleanedTags (tags : String) : List String :=
  (jsSplit tags ',').map (fun t => stripEdgeQuotes (jsTrim t))

/-- Classified outcome of one `runTask` run. -/
inductive TaskOutcome where
  | parseFailure
  | ollamaFailure
  | success (result : String)
deriving DecidableEq, Repr

/-- Result of a `runTask` run plus how many times the inference collaborator
was invoked. -/
structure RunTaskRes where
  outcome : TaskOutcome
  ollamaCalls : Nat
deriving DecidableEq, Repr

/-- `runTask` (src/unnamed/part_003 lines 114-144): extraction via
`parseSite` with the default retry budget, failure detected solely by
equality with the sentinel, then a single `processWithOllama` call, its
failure also detected solely by equality with its sentinel. -/
def runTask (cfg : TaskConfig) (outs : Nat → AttemptOutcome)
    (o : OllamaOutcome) : RunTaskRes :=
  let content := (parseSite cfg.url (cleanedTags cfg.tags) outs).result
  if content = "Error parsing site" then ⟨.parseFailure, 0⟩
  else
    let r := processWithOllama cfg.model cfg.prompt content
      (cfg.ollamaHost.getD "http://localhost:11434") o
    if r = "Error processing with Ollama" then ⟨.ollamaFailure, 1⟩
    else ⟨.success r, 1⟩

/-! ### Scheduler activation and daemon stop -/

/-- A task as the scheduler sees it: its file name and its raw schedule
string (the other config fields do not influence scheduling). -/
structure STask where
  file : String
  duration : String
deriving DecidableEq, Repr

/-- A live scheduled-task handle: an armed one-shot timeout or a registered
cron job, as pushed onto `scheduledTasks` by `startDaemon`. -/
inductive Handle where
  | timeout (t : STask)
  | cronJob (t : STask) (schedule : String)
deriving DecidableEq, Repr

/-- The per-task scheduling loop of `startDaemon` (src/unnamed/part_003
lines 149-192): parse the duration; `null` skips the task; a one-time
duration arms a timeout only for a positive delay; a cron duration is
re-validated and registered, an invalid one logged and skipped.  Failures
are contained per task: the fold always continues with the next task. -/
def activate (tasks : List STask) (now : Int) : List Handle :=
  tasks.foldl
    (fun acc task =>
      match parseDuration task.duration now with
      | none => acc
      | some (.once d) => if d > 0 then acc ++ [Handle.timeout task] else acc
      | some (.cron sch) =>
          if cronValidate sch then acc ++ [Handle.cronJob task sch] else acc)
    []

/-- The daemon state `stopDaemon` mutates: the `scheduledTasks` array and
whether `keepAliveTimer` is set. -/
structure DaemonSt where
  scheduledTasks : List Handle
  keepAlive : Bool
deriving DecidableEq, Repr

/-- Observable cancellation effects of `stopDaemon`. -/
inductive CancelEvent where
  | clearTimeout (t : STask)
  | destroyCron (t : STask) (schedule : String)
  | clearKeepAlive
deriving DecidableEq, Repr

/-- The cancellation `stopDaemon` performs on one handle:
`t.timeout ? clearTimeout(t.timeout) : t.cronTask.destroy()`. -/
def cancelOf (h : Handle) : CancelEvent :=
  match h with
  | .timeout t => .clearTimeout t
  | .cronJob t sch => .destroyCron t sch

/-- `stopDaemon` (src/unnamed/part_003 lines 201-213): cancel every handle,
truncate `scheduledTasks` to length 0, clear the keep-alive interval if set.
Returns the new state and the emitted cancellation events. -/
def stopDaemon (s : DaemonSt) : DaemonSt × List CancelEvent :=
  let evs := s.scheduledTasks.map cancelOf
  let evs' := if s.keepAlive then evs ++ [CancelEvent.clearKeepAlive] else evs
  (⟨[], false⟩, evs')

/-- A handle can still fire only while it is registered in the live state. -/
def canFire (s : DaemonSt) (h : Handle) : Prop :=
  h ∈ s.scheduledTasks

/-! ### Branch lemmas for `parseDuration` -/

theorem parseDuration_empty (now : Int) : parseDuration "" now = none := rfl

theorem parseDuration_cron (s : String) (now : Int)
    (h : cronGuard (jsTrim s)) : parseDuration s now = some (.cron (jsTrim s)) := by
  have hne : s ≠ "" := by
    intro he
    subst he
    exact absurd h.1 (by decide)
  unfold parseDuration
  rw [if_neg hne, if_pos h]

theorem parseDuration_dotSpace_ok (s : String) (now : Int)
    (day month year hour minute : Int)
    (hne : s ≠ "") (hcg : ¬ cronGuard (jsTrim s))
    (hdot : jsContainsCh (jsTrim s) '.' = true)
    (hsp : jsContainsCh (jsTrim s) ' ' = true)
    (h1 : numAt (dateComps (jsTrim s)) 0 = some day)
    (h2 : numAt (dateComps (jsTrim s)) 1 = some month)
    (h3 : numAt (dateComps (jsTrim s)) 2 = some year)
    (h4 : numAt (timeComps (jsTrim s)) 0 = some hour)
    (h5 : numAt (timeComps (jsTrim s)) 1 = some minute) :
    parseDuration s now =
      some (.once (jsDateValue (2000 + year) (month - 1) day hour minute - now)) := by
  unfold parseDuration
  rw [if_neg hne, if_neg hcg, if_pos hdot, if_pos hsp, h1, h2, h3, h4, h5]

theorem parseDuration_dotSpace_nan (s : String) (now : Int)
    (hne : s ≠ "") (hcg : ¬ cronGuard (jsTrim s))
    (hdot : jsContainsCh (jsTrim s) '.' = true)
    (hsp : jsContainsCh (jsTrim s) ' ' = true)
    (hnan : numAt (dateComps (jsTrim s)) 0 = none ∨
      numAt (dateComps (jsTrim s)) 1 = none ∨
      numAt (dateComps (jsTrim s)) 2 = none ∨
      numAt (timeComps (jsTrim s)) 0 = none ∨
      numAt (timeComps (jsTrim s)) 1 = none) :
    parseDuration s now = none := by
  unfold parseDuration
  rw [if_neg hne, if_neg hcg, if_pos hdot, if_pos hsp]
  cases e1 : numAt (dateComps (jsTrim s)) 0 <;>
    cases e2 : numAt (dateComps (jsTrim s)) 1 <;>
    cases e3 : numAt (dateComps (jsTrim s)) 2 <;>
    cases e4 : numAt (timeComps (jsTrim s)) 0 <;>
    cases e5 : numAt (timeComps (jsTrim s)) 1 <;>
    simp_all

theorem parseDuration_dotNoSpace_ok (s : String) (now : Int) (hour minute : Int)
    (hne : s ≠ "") (hcg : ¬ cronGuard (jsTrim s))
    (hdot : jsContainsCh (jsTrim s) '.' = true)
    (hsp : jsContainsCh (jsTrim s) ' ' = false)
    (h1 : numAt (jsSplit (jsTrim s) '.') 0 = some hour)
    (h2 : numAt (jsSplit (jsTrim s) '.') 1 = some minute) :
    parseDuration s now =
      some (.cron (toString minute ++ " " ++ toString hour ++ " * * *")) := by
  unfold parseDuration
  rw [if_neg hne, if_neg hcg, if_pos hdot, if_neg (by simp [hsp]), h1, h2]

theorem parseDuration_dotNoSpace_nan (s : String) (now : Int)
    (hne : s ≠ "") (hcg : ¬ cronGuard (jsTrim s))
    (hdot : jsContainsCh (jsTrim s) '.' = true)
    (hsp : jsContainsCh (jsTrim s) ' ' = false)
    (hnan : numAt (jsSplit (jsTrim s) '.') 0 = none ∨
      numAt (jsSplit (jsTrim s) '.') 1 = none) :
    parseDuration s now = none := by
  unfold parseDuration
  rw [if_neg hne, if_neg hcg, if_pos hdot, if_neg (by simp [hsp])]
  cases e1 : numAt (jsSplit (jsTrim s) '.') 0 <;>
    cases e2 : numAt (jsSplit (jsTrim s) '.') 1 <;>
    simp_all

theorem parseDuration_noDot (s : String) (now : Int)
    (hne : s ≠ "") (hcg : ¬ cronGuard (jsTrim s))
    (hdot : jsContainsCh (jsTrim s) '.' = false) :
    parseDuration s now = none := by
  unfold parseDuration
  rw [if_neg hne, if_neg hcg, if_neg (by simp [hdot])]

/-- Agreement of two parse results obtained at (possibly different) clock
readings `n1` and `n2`: both rejected, or the same cron expression, or
one-time delays denoting the same absolute target instant
(`delay + now = target`). -/
def scheduleAgrees : Option Duration → Int → Option Duration → Int → Prop
  | none, _, none, _ => True
  | some (.cron a), _, some (.cron b), _ => a = b
  | some (.once d1), n1, some (.once d2), n2 => d1 + n1 = d2 + n2
  | _, _, _, _ => False

/-! ### Claims about the Schedule Parser -/

/-- C4: every string whose trimmed form splits on spaces into exactly five
fields, each a syntactically valid cron field, parses to `Recurring` carrying
exactly the trimmed expression; the cron branch is tested first, so this form
takes priority over the date, time and rejection branches. -/
theorem C4_cron_exact (s : String) (now : Int)
    (h5 : (jsSplit (jsTrim s) ' ').length = 5)
    (hv : cronValidate (jsTrim s) = true) :
    parseDuration s now = some (.cron (jsTrim s)) :=
  parseDuration_cron s now ⟨h5, hv⟩

/-- Witness for C4 at the concrete cron string "0 5 * * 1". -/
theorem C4_cron_exact_witness :
    ((jsSplit (jsTrim "0 5 * * 1") ' ').length = 5 ∧
      cronValidate (jsTrim "0 5 * * 1") = true) ∧
    parseDuration "0 5 * * 1" 9 = some (.cron (jsTrim "0 5 * * 1")) :=
  ⟨⟨by decide, by decide⟩, C4_cron_exact "0 5 * * 1" 9 (by decide) (by decide)⟩

/-- C2 counterexample: the schedule "32.01.25 10.30" has day 32, which does
not form a valid calendar date, yet `parseDuration` returns a `OneTime`
schedule (JS `new Date` normalises day 32 of January 2025 to 1 February 2025
by rollover; `isNaN` only detects non-numeric components).  The claim demands
rejection with `InvalidDateFormat` here. -/
theorem C2_counterexample :
    parseDuration "32.01.25 10.30" 0 = some (.once 1738405800000) := by decide

/-- C2 amended: for a non-empty schedule string whose trimmed form is not a
five-field cron expression but contains a '.' and a space, the components are
read as `dd.mm.yy hh.mm` (year offset from 2000); whenever all five
components are numeric — even out of calendar range, in which case JS date
rollover normalises them — the result is a `OneTime` schedule for the
computed instant, and the parse is rejected exactly when some component is
not numeric (NaN). -/
theorem C2_date_rollover :
    (∀ s now day month year hour minute, s ≠ "" → ¬ cronGuard (jsTrim s) →
      jsContainsCh (jsTrim s) '.' = true → jsContainsCh (jsTrim s) ' ' = true →
      numAt (dateComps (jsTrim s)) 0 = some day →
      numAt (dateComps (jsTrim s)) 1 = some month →
      numAt (dateComps (jsTrim s)) 2 = some year →
      numAt (timeComps (jsTrim s)) 0 = some hour →
      numAt (timeComps (jsTrim s)) 1 = some minute →
      parseDuration s now =
        some (.once (jsDateValue (2000 + year) (month - 1) day hour minute - now))) ∧
    (∀ s now, s ≠ "" → ¬ cronGuard (jsTrim s) →
      jsContainsCh (jsTrim s) '.' = true → jsContainsCh (jsTrim s) ' ' = true →
      (numAt (dateComps (jsTrim s)) 0 = none ∨
        numAt (dateComps (jsTrim s)) 1 = none ∨
        numAt (dateComps (jsTrim s)) 2 = none ∨
        numAt (timeComps (jsTrim s)) 0 = none ∨
        numAt (timeComps (jsTrim s)) 1 = none) →
      parseDuration s now = none) :=
  ⟨fun s now day month year hour minute hne hcg hdot hsp h1 h2 h3 h4 h5 =>
      parseDuration_dotSpace_ok s now day month year hour minute hne hcg hdot hsp h1 h2 h3 h4 h5,
    fun s now hne hcg hdot hsp hnan =>
      parseDuration_dotSpace_nan s now hne hcg hdot hsp hnan⟩

/-- Witness for C2 amended at the out-of-range date "32.01.25 10.30". -/
theorem C2_date_rollover_witness :
    numAt (dateComps (jsTrim "32.01.25 10.30")) 0 = some 32 ∧
    parseDuration "32.01.25 10.30" 5 =
      some (.once (jsDateValue (2000 + 25) (1 - 1) 32 10 30 - 5)) :=
  ⟨by decide,
    C2_date_rollover.1 "32.01.25 10.30" 5 32 1 25 10 30 (by decide) (by decide)
      (by decide) (by decide) (by decide) (by decide) (by decide) (by decide) (by decide)⟩

/-- C3 counterexample: the schedule "25.70" is out of range (hour 25, minute
70), yet `parseDuration` returns `Recurring` with the cron expression
"70 25 * * *" — there is no range validation in the `hh.mm` branch, only the
NaN check.  The claim demands rejection with `InvalidTimeFormat` here. -/
theorem C3_counterexample :
    parseDuration "25.70" 0 = some (.cron "70 25 * * *") := by decide

/-- C3 amended: for a non-empty schedule string whose trimmed form is not a
five-field cron expression and contains a '.' but no space, the two
'.'-separated components are read as `hh.mm`; the parse validates only that
both are numeric (rejecting with `InvalidTimeFormat` otherwise, with no range
check), and for numeric components — in particular every in-range pair
0≤hh≤23, 0≤mm≤59 — returns `Recurring` with the cron expression
"mm hh * * *". -/
theorem C3_daily_time :
    (∀ s now hour minute, s ≠ "" → ¬ cronGuard (jsTrim s) →
      jsContainsCh (jsTrim s) '.' = true → jsContainsCh (jsTrim s) ' ' = false →
      numAt (jsSplit (jsTrim s) '.') 0 = some hour →
      numAt (jsSplit (jsTrim s) '.') 1 = some minute →
      parseDuration s now =
        some (.cron (toString minute ++ " " ++ toString hour ++ " * * *"))) ∧
    (∀ s now, s ≠ "" → ¬ cronGuard (jsTrim s) →
      jsContainsCh (jsTrim s) '.' = true → jsContainsCh (jsTrim s) ' ' = false →
      (numAt (jsSplit (jsTrim s) '.') 0 = none ∨
        numAt (jsSplit (jsTrim s) '.') 1 = none) →
      parseDuration s now = none) :=
  ⟨fun s now hour minute hne hcg hdot hsp h1 h2 =>
      parseDuration_dotNoSpace_ok s now hour minute hne hcg hdot hsp h1 h2,
    fun s now hne hcg hdot hsp hnan =>
      parseDuration_dotNoSpace_nan s now hne hcg hdot hsp hnan⟩

/-- Witness for C3 amended at the in-range daily time "12.30". -/
theorem C3_daily_time_witness :
    numAt (jsSplit (jsTrim "12.30") '.') 0 = some 12 ∧
    parseDuration "12.30" 4 = some (.cron (toString (30 : Int) ++ " " ++ toString (12 : Int) ++ " * * *")) :=
  ⟨by decide,
    C3_daily_time.1 "12.30" 4 12 30 (by decide) (by decide) (by decide) (by decide)
      (by decide) (by decide)⟩

/-- C5: parsing is deterministic and idempotent up to the clock reading:
re-parsing the same string yields agreeing `Schedule` values — both rejected,
the same cron expression, or `OneTime` delays denoting the same absolute
target instant (`delay + now` is the same; at equal clock readings the two
results are literally equal). -/
theorem C5_parse_idempotent (s : String) (n1 n2 : Int) :
    scheduleAgrees (parseDuration s n1) n1 (parseDuration s n2) n2 := by
  by_cases hne : s = ""
  · subst hne
    rw [parseDuration_empty, parseDuration_empty]
    trivial
  · by_cases hcg : cronGuard (jsTrim s)
    · rw [parseDuration_cron s n1 hcg, parseDuration_cron s n2 hcg]
      exact rfl
    · by_cases hdot : jsContainsCh (jsTrim s) '.' = true
      · by_cases hsp : jsContainsCh (jsTrim s) ' ' = true
        · cases e1 : numAt (dateComps (jsTrim s)) 0 with
          | none =>
            rw [parseDuration_dotSpace_nan s n1 hne hcg hdot hsp (Or.inl e1),
              parseDuration_dotSpace_nan s n2 hne hcg hdot hsp (Or.inl e1)]
            trivial
          | some day =>
            cases e2 : numAt (dateComps (jsTrim s)) 1 with
            | none =>
              rw [parseDuration_dotSpace_nan s n1 hne hcg hdot hsp (Or.inr (Or.inl e2)),
                parseDuration_dotSpace_nan s n2 hne hcg hdot hsp (Or.inr (Or.inl e2))]
              trivial
            | some month =>
              cases e3 : numAt (dateComps (jsTrim s)) 2 with
              | none =>
                rw [parseDuration_dotSpace_nan s n1 hne hcg hdot hsp
                    (Or.inr (Or.inr (Or.inl e3))),
                  parseDuration_dotSpace_nan s n2 hne hcg hdot hsp
                    (Or.inr (Or.inr (Or.inl e3)))]
                trivial
              | some year =>
                cases e4 : numAt (timeComps (jsTrim s)) 0 with
                | none =>
                  rw [parseDuration_dotSpace_nan s n1 hne hcg hdot hsp
                      (Or.inr (Or.inr (Or.inr (Or.inl e4)))),
                    parseDuration_dotSpace_nan s n2 hne hcg hdot hsp
                      (Or.inr (Or.inr (Or.inr (Or.inl e4))))]
                  trivial
                | some hour =>
                  cases e5 : numAt (timeComps (jsTrim s)) 1 with
                  | none =>
                    rw [parseDuration_dotSpace_nan s n1 hne hcg hdot hsp
                        (Or.inr (Or.inr (Or.inr (Or.inr e5)))),
                      parseDuration_dotSpace_nan s n2 hne hcg hdot hsp
                        (Or.inr (Or.inr (Or.inr (Or.inr e5))))]
                    trivial
                  | some minute =>
                    rw [parseDuration_dotSpace_ok s n1 day month year hour minute
                        hne hcg hdot hsp e1 e2 e3 e4 e5,
                      parseDuration_dotSpace_ok s n2 day month year hour minute
                        hne hcg hdot hsp e1 e2 e3 e4 e5]
                    show _ - n1 + n1 = _ - n2 + n2
                    omega
        · have hsp' : jsContainsCh (jsTrim s) ' ' = false := by
            simpa using hsp
          cases e1 : numAt (jsSplit (jsTrim s) '.') 0 with
          | none =>
            rw [parseDuration_dotNoSpace_nan s n1 hne hcg hdot hsp' (Or.inl e1),
              parseDuration_dotNoSpace_nan s n2 hne hcg hdot hsp' (Or.inl e1)]
            trivial
          | some hour =>
            cases e2 : numAt (jsSplit (jsTrim s) '.') 1 with
            | none =>
              rw [parseDuration_dotNoSpace_nan s n1 hne hcg hdot hsp' (Or.inr e2),
                parseDuration_dotNoSpace_nan s n2 hne hcg hdot hsp' (Or.inr e2)]
              trivial
            | some minute =>
              rw [parseDuration_dotNoSpace_ok s n1 hour minute hne hcg hdot hsp' e1 e2,
                parseDuration_dotNoSpace_ok s n2 hour minute hne hcg hdot hsp' e1 e2]
              exact rfl
      · have hdot' : jsContainsCh (jsTrim s) '.' = false := by
          simpa using hdot
        rw [parseDuration_noDot s n1 hne hcg hdot', parseDuration_noDot s n2 hne hcg hdot']
        trivial

/-! ### Lemmas about the `parseSite` retry loop -/

theorem parseSiteGo_invalid (outs : Nat → AttemptOutcome) (fuel : Nat) :
    ∀ attempt, parseSiteGo false outs attempt (fuel + 1) =
      ⟨"Error parsing site", fuel + 1, 0, 0, fuel⟩ := by
  induction fuel with
  | zero => intro attempt; rfl
  | succ n ih =>
    intro attempt
    show parseSiteGo false outs attempt (n + 1 + 1) = _
    rw [parseSiteGo]
    have hs : attemptStep false (outs attempt) = (none, 0, 0) := rfl
    rw [hs]
    simp only [Nat.succ_ne_zero, if_false, ih (attempt + 1)]

theorem parseSiteGo_retry_succ (outs : Nat → AttemptOutcome) (c : String)
    (hc1 : jsStartsWith c "Error:" = false) (hc2 : c ≠ "") (fuel : Nat) :
    ∀ attempt, (∀ j, attempt ≤ j → j < attempt + fuel → outs j = .navFail) →
    outs (attempt + fuel) = .evalOk c →
    parseSiteGo true outs attempt (fuel + 1) =
      ⟨c, fuel + 1, fuel + 1, fuel + 1, fuel⟩ := by
  induction fuel with
  | zero =>
    intro attempt _ hsucc
    rw [Nat.add_zero] at hsucc
    rw [parseSiteGo]
    have hs : attemptStep true (outs attempt) = (some c, 1, 1) := by
      rw [hsucc]
      simp [attemptStep, hc1, hc2]
    rw [hs]
  | succ n ih =>
    intro attempt hfail hsucc
    have h0 : outs attempt = .navFail := hfail attempt le_rfl (by omega)
    show parseSiteGo true outs attempt (n + 1 + 1) = _
    rw [parseSiteGo]
    have hs : attemptStep true (outs attempt) = (none, 1, 1) := by
      rw [h0]; rfl
    rw [hs]
    have hrest := ih (attempt + 1)
      (fun j hj1 hj2 => hfail j (by omega) (by omega))
      (by rw [show attempt + 1 + n = attempt + (n + 1) by omega]; exact hsucc)
    simp only [Nat.succ_ne_zero, if_false, hrest]
    congr 1 <;> omega

theorem parseSiteGo_allFail (valid : Bool) (outs : Nat → AttemptOutcome)
    (hf : ∀ i, (attemptStep valid (outs i)).1 = none) (fuel : Nat) :
    ∀ attempt, (parseSiteGo valid outs attempt fuel).result = "Error parsing site" := by
  induction fuel with
  | zero => intro attempt; rfl
  | succ n ih =>
    intro attempt
    rw [parseSiteGo]
    have hs := hf attempt
    rcases h : attemptStep valid (outs attempt) with ⟨s, a, b⟩
    rw [h] at hs
    simp only at hs
    subst hs
    by_cases hn : n = 0
    · subst hn; rfl
    · simp only [if_neg hn]
      exact ih (attempt + 1)

theorem splitChL_ne_nil (sep : Char) (l : List Char) : splitChL sep l ≠ [] := by
  induction l with
  | nil => simp [splitChL]
  | cons x rest ih =>
    rw [splitChL]
    by_cases hx : x = sep
    · simp [hx]
    · simp only [if_neg hx]
      rcases h : splitChL sep rest with _ | ⟨hd, tl⟩
      · exact absurd h ih
      · simp

theorem cleanedTags_ne_nil (tags : String) : cleanedTags tags ≠ [] := by
  unfold cleanedTags jsSplit
  intro h
  exact splitChL_ne_nil ',' tags.toList
    (List.map_eq_nil_iff.mp (List.map_eq_nil_iff.mp h))

/-! ### Claims about the extraction stage -/

/-- C1 counterexample: `parseSite` with the malformed URL "notaurl" (which
does not match the HTTP(S) pattern) and a non-empty selector list, at the
default retry budget of 2, performs 2 attempts and waits 1 inter-attempt
backoff delay before surfacing the failure — the validation throw lands in
the same catch block as transient errors, so the `InvalidInput` failure is
retried, contradicting "no further attempt is made and no inter-attempt
backoff delay elapses". -/
theorem C1_counterexample :
    parseSite "notaurl" ["body"] (fun _ => .evalOk "x") 2 =
      ⟨"Error parsing site", 2, 0, 0, 1⟩ := by decide

/-- C1 amended: a run whose target URL fails the HTTP(S) pattern or whose
selector list is empty fails on every attempt before acquiring the browser;
the failure is handled like any other attempt failure — after `retries`
attempts, with an inter-attempt backoff delay between consecutive attempts
(`retries − 1` of them), the sentinel failure is surfaced, and the browser is
never acquired. -/
theorem C1_invalid_input_retried (url : String) (tags : List String)
    (outs : Nat → AttemptOutcome) (retries : Nat)
    (hr : 1 ≤ retries) (hinv : urlValid url = false ∨ tags = []) :
    parseSite url tags outs retries =
      ⟨"Error parsing site", retries, 0, 0, retries - 1⟩ := by
  have hv : (urlValid url && !tags.isEmpty) = false := by
    rcases hinv with h | h
    · simp [h]
    · simp [h]
  unfold parseSite
  rw [hv]
  obtain ⟨f, rfl⟩ : ∃ f, retries = f + 1 := ⟨retries - 1, by omega⟩
  rw [parseSiteGo_invalid outs f 1]
  simp

/-- Witness for C1 amended at the malformed URL "notaurl" with 2 retries. -/
theorem C1_invalid_input_retried_witness :
    (1 ≤ 2 ∧ urlValid "notaurl" = false) ∧
    parseSite "notaurl" ["body"] (fun _ => .navFail) 2 =
      ⟨"Error parsing site", 2, 0, 0, 1⟩ :=
  ⟨⟨by decide, by decide⟩,
    C1_invalid_input_retried "notaurl" ["body"] (fun _ => .navFail) 2 (by decide)
      (Or.inl (by decide))⟩

/-- C6: with valid input, when the first `retries − 1` attempts fail
transiently after acquiring the browser (navigation failure) and the final
attempt succeeds with content `c`, the run returns the extracted content —
a `Result`, not a `Failure` — and the browser was acquired exactly once per
attempt and released before each attempt concluded: acquisitions = releases
= attempts = `retries`, with no session leaking across attempts. -/
theorem C6_retry_then_success (url : String) (tags : List String)
    (outs : Nat → AttemptOutcome) (retries : Nat) (c : String)
    (hval : urlValid url = true) (htags : tags ≠ [])
    (hr : 1 ≤ retries)
    (hfail : ∀ j, 1 ≤ j → j < retries → outs j = .navFail)
    (hsucc : outs retries = .evalOk c)
    (hc1 : jsStartsWith c "Error:" = false) (hc2 : c ≠ "") :
    parseSite url tags outs retries = ⟨c, retries, retries, retries, retries - 1⟩ := by
  have hv : (urlValid url && !tags.isEmpty) = true := by
    simp [hval, htags]
  unfold parseSite
  rw [hv]
  obtain ⟨f, rfl⟩ : ∃ f, retries = f + 1 := ⟨retries - 1, by omega⟩
  rw [parseSiteGo_retry_succ outs c hc1 hc2 f 1
    (fun j hj1 hj2 => hfail j hj1 (by omega))
    (by rw [show 1 + f = f + 1 by omega]; exact hsucc)]
  simp

/-- Witness for C6: 3 attempts, the first two failing in navigation, the
third extracting "hello". -/
theorem C6_retry_then_success_witness :
    (urlValid "http://example.com" = true ∧
      (fun i => if i < 3 then AttemptOutcome.navFail else .evalOk "hello") 3 =
        AttemptOutcome.evalOk "hello") ∧
    parseSite "http://example.com" ["body"]
      (fun i => if i < 3 then AttemptOutcome.navFail else .evalOk "hello") 3 =
      ⟨"hello", 3, 3, 3, 2⟩ :=
  ⟨⟨by decide, by decide⟩,
    C6_retry_then_success "http://example.com" ["body"]
      (fun i => if i < 3 then AttemptOutcome.navFail else .evalOk "hello") 3 "hello"
      (by decide) (by simp) (by decide)
      (fun j hj1 hj2 => by
        have : j = 1 ∨ j = 2 := by omega
        rcases this with rfl | rfl <;> rfl)
      (by decide) (by decide) (by decide)⟩

/-- C9: the boundary behaviour of `parseSite` is a total string return with
sentinel-based failure signalling: (1) whenever no attempt produces a
successful extraction, the run returns exactly the sentinel
"Error parsing site"; (2) `runTask` detects extraction failure solely by
string equality with that sentinel, so a page whose genuinely extracted text
equals "Error parsing site" is treated as an extraction failure — the
inference collaborator is never invoked; (3) a page on which nothing matched
(extraction returned the empty string) yields the canonical marker
"No content found", not a failure. -/
theorem C9_sentinel_aliasing :
    (∀ url tags outs retries,
      (∀ i, (attemptStep (urlValid url && !List.isEmpty tags) (outs i)).1 = none) →
      (parseSite url tags outs retries).result = "Error parsing site") ∧
    (∀ cfg outs o, urlValid cfg.url = true →
      outs 1 = AttemptOutcome.evalOk "Error parsing site" →
      runTask cfg outs o = ⟨.parseFailure, 0⟩) ∧
    (∀ url tags outs, urlValid url = true → tags ≠ [] →
      outs 1 = AttemptOutcome.evalOk "" →
      (parseSite url tags outs 2).result = "No content found") := by
  refine ⟨?_, ?_, ?_⟩
  · intro url tags outs retries hf
    exact parseSiteGo_allFail (urlValid url && !List.isEmpty tags) outs hf retries 1
  · intro cfg outs o hval h1
    have hv : (urlValid cfg.url && !List.isEmpty (cleanedTags cfg.tags)) = true := by
      simp [hval, cleanedTags_ne_nil cfg.tags]
    have hcontent : (parseSite cfg.url (cleanedTags cfg.tags) outs).result =
        "Error parsing site" := by
      unfold parseSite
      rw [hv, parseSiteGo]
      have hs : attemptStep true (outs 1) = (some "Error parsing site", 1, 1) := by
        rw [h1]; rfl
      rw [hs]
    unfold runTask
    rw [hcontent]
    rfl
  · intro url tags outs hval htags h1
    have hv : (urlValid url && !List.isEmpty tags) = true := by
      simp [hval, htags]
    unfold parseSite
    rw [hv, parseSiteGo]
    have hs : attemptStep true (outs 1) = (some "No content found", 1, 1) := by
      rw [h1]; rfl
    rw [hs]

/-- Witness for C9 at a concrete task whose page text is exactly the
sentinel string. -/
theorem C9_sentinel_aliasing_witness :
    urlValid "http://example.com" = true ∧
    runTask ⟨"t", "http://example.com", "body", "m", "p {content}", none⟩
      (fun _ => .evalOk "Error parsing site") (.genOk "reply") =
      ⟨.parseFailure, 0⟩ :=
  ⟨by decide,
    C9_sentinel_aliasing.2.1
      ⟨"t", "http://example.com", "body", "m", "p {content}", none⟩
      (fun _ => .evalOk "Error parsing site") (.genOk "reply") (by decide) rfl⟩

/-! ### Claims about the inference stage, activation and shutdown -/

/-- C7 counterexample: after a successful extraction, an empty (but
non-throwing) response from the inference collaborator is NOT classified as
`InferenceFailed`: `processWithOllama` returns the response text unchanged,
`runTask` compares it only against the sentinel string, and an empty text is
recorded as a success `Result`.  The claim demands a failure record here. -/
theorem C7_counterexample :
    runTask ⟨"t", "http://example.com", "body", "m", "p {content}", none⟩
      (fun _ => .evalOk "stuff") (.genOk "") = ⟨.success "", 1⟩ := by decide

/-- C7 amended: the inference stage is attempted exactly once per successful
extraction and is never retried; a connectivity failure (service
unreachable) or a thrown/error generation response yields the
`InferenceFailed` classification (a failure record, not a `Result`).  An
empty successful response, however, is recorded as a success `Result` with
empty text. -/
theorem C7_inference_once (cfg : TaskConfig) (outs : Nat → AttemptOutcome)
    (o : OllamaOutcome)
    (hext : (parseSite cfg.url (cleanedTags cfg.tags) outs).result ≠
      "Error parsing site") :
    (runTask cfg outs o).ollamaCalls = 1 ∧
    ((o = .unreachable ∨ o = .genError) →
      (runTask cfg outs o).outcome = .ollamaFailure) := by
  constructor
  · unfold runTask
    rw [if_neg hext]
    by_cases hr : processWithOllama cfg.model cfg.prompt
        (parseSite cfg.url (cleanedTags cfg.tags) outs).result
        (cfg.ollamaHost.getD "http://localhost:11434") o =
        "Error processing with Ollama"
    · rw [if_pos hr]
    · rw [if_neg hr]
  · intro ho
    have hr : processWithOllama cfg.model cfg.prompt
        (parseSite cfg.url (cleanedTags cfg.tags) outs).result
        (cfg.ollamaHost.getD "http://localhost:11434") o =
        "Error processing with Ollama" := by
      rcases ho with rfl | rfl <;>
        · unfold processWithOllama
          split_ifs <;> rfl
    unfold runTask
    rw [if_neg hext, if_pos hr]

/-- Witness for C7 amended: a reachable extraction followed by an
unreachable inference service. -/
theorem C7_inference_once_witness :
    (parseSite "http://example.com"
        (cleanedTags "body") (fun _ => .evalOk "stuff")).result ≠
      "Error parsing site" ∧
    (runTask ⟨"t", "http://example.com", "body", "m", "p {content}", none⟩
        (fun _ => .evalOk "stuff") .unreachable).ollamaCalls = 1 ∧
    (runTask ⟨"t", "http://example.com", "body", "m", "p {content}", none⟩
        (fun _ => .evalOk "stuff") .unreachable).outcome = .ollamaFailure :=
  ⟨by decide,
    (C7_inference_once ⟨"t", "http://example.com", "body", "m", "p {content}", none⟩
      (fun _ => .evalOk "stuff") .unreachable (by decide)).1,
    (C7_inference_once ⟨"t", "http://example.com", "body", "m", "p {content}", none⟩
      (fun _ => .evalOk "stuff") .unreachable (by decide)).2 (Or.inl rfl)⟩

/-- C8: activating a batch of two tasks whose first carries the invalid
four-field cron string "* * * *" and whose second carries any valid
five-field cron schedule creates exactly one live handle — the cron
registration of the second task; the first is skipped (its parse throws
`Invalid duration format`, caught and logged) without aborting the
activation of the remaining tasks or terminating the daemon. -/
theorem C8_invalid_cron_isolated (t1 t2 : STask) (now : Int)
    (h1 : t1.duration = "* * * *")
    (h5 : (jsSplit (jsTrim t2.duration) ' ').length = 5)
    (hv : cronValidate (jsTrim t2.duration) = true) :
    activate [t1, t2] now = [Handle.cronJob t2 (jsTrim t2.duration)] := by
  unfold activate
  simp only [List.foldl]
  rw [h1]
  have hp1 : parseDuration "* * * *" now = none := rfl
  rw [hp1, parseDuration_cron t2.duration now ⟨h5, hv⟩]
  simp [hv]

/-- Witness for C8 with a concrete invalid/valid task pair. -/
theorem C8_invalid_cron_isolated_witness :
    ((⟨"bad", "* * * *"⟩ : STask).duration = "* * * *" ∧
      cronValidate (jsTrim (⟨"good", "0 12 * * *"⟩ : STask).duration) = true) ∧
    activate [⟨"bad", "* * * *"⟩, ⟨"good", "0 12 * * *"⟩] 0 =
      [Handle.cronJob ⟨"good", "0 12 * * *"⟩ (jsTrim "0 12 * * *")] :=
  ⟨⟨rfl, by decide⟩,
    C8_invalid_cron_isolated ⟨"bad", "* * * *"⟩ ⟨"good", "0 12 * * *"⟩ 0 rfl
      (by decide) (by decide)⟩

/-- C10: `stopDaemon` always establishes the empty-scheduler state: the
scheduled-task list is emptied, the keep-alive timer is cleared, every
handle that was live receives its cancellation (timeouts cleared, cron
registrations destroyed), no handle armed before the stop can fire after it,
and a second call from the resulting state changes nothing and cancels
nothing (idempotence). -/
theorem C10_stop_empties (s : DaemonSt) :
    (stopDaemon s).1.scheduledTasks = [] ∧
    (stopDaemon s).1.keepAlive = false ∧
    (∀ h, h ∈ s.scheduledTasks → cancelOf h ∈ (stopDaemon s).2) ∧
    (∀ h, ¬ canFire (stopDaemon s).1 h) ∧
    stopDaemon (stopDaemon s).1 = ((stopDaemon s).1, []) := by
  refine ⟨rfl, rfl, ?_, ?_, rfl⟩
  · intro h hmem
    unfold stopDaemon
    by_cases hk : s.keepAlive
    · simp only [hk, if_true]
      exact List.mem_append_left _ (List.mem_map_of_mem cancelOf hmem)
    · simp only [hk, if_false]
      exact List.mem_map_of_mem cancelOf hmem
  · intro h hc
    exact absurd hc (List.not_mem_nil h)

/-- Witness for C10 at a state holding one armed timeout and one cron
registration plus a live keep-alive timer. -/
theorem C10_stop_empties_witness :
    Handle.timeout ⟨"a", "5.30"⟩ ∈
      (⟨[Handle.timeout ⟨"a", "5.30"⟩, Handle.cronJob ⟨"b", "0 0 * * *"⟩ "0 0 * * *"],
        true⟩ : DaemonSt).scheduledTasks ∧
    cancelOf (Handle.timeout ⟨"a", "5.30"⟩) ∈
      (stopDaemon ⟨[Handle.timeout ⟨"a", "5.30"⟩,
        Handle.cronJob ⟨"b", "0 0 * * *"⟩ "0 0 * * *"], true⟩).2 :=
  ⟨by decide,
    (C10_stop_empties ⟨[Handle.timeout ⟨"a", "5.30"⟩,
        Handle.cronJob ⟨"b", "0 0 * * *"⟩ "0 0 * * *"], true⟩).2.2.1
      (Handle.timeout ⟨"a", "5.30"⟩) (by decide)⟩

end WebObserver
